import Mathlib

set_option maxRecDepth 4000

attribute [local semireducible] Rat.add Rat.mul Rat.inv Rat.sub Rat.ofScientific

/-!
Verification development for the XML-editor repository.

The Python sources are shallowly embedded as executable Lean definitions:

* Python `float` values that hold media times are modelled as `ℚ`;
* Python `str` values inside the timecode engine are modelled as `List Char`
  (written `Str` below), so that splitting and integer parsing can be
  reasoned about directly;
* Python dictionaries (which are insertion ordered) are modelled as
  association lists;
* calls into external collaborators (`ffprobe`) are modelled as an oracle
  function passed as an argument.

The embedded functions keep the names of the Python functions they model
(`timecode_to_seconds`, `seconds_to_timecode`, `calculate_sync_offsets`,
`get_multicam_sync_data` from `src/timecode_utils.py`, the timeline loops of
`_generate_premiere_xml` and `_generate_multicam_premiere_xml` from
`src/xml_builder.py`, and the selection validation of
`generate_script` / `generate_multicam_script` from `src/script_generator.py`).
-/

/-- Strings of the timecode engine are modelled as lists of characters. -/
abbrev Str := List Char

/-- Python `int()` applied to a real value truncates toward zero. -/
def pyInt (q : ℚ) : ℤ := if 0 ≤ q then ⌊q⌋ else ⌈q⌉

/-- Python `%` on floats: the result has the sign of the divisor
(`a - b * floor (a / b)`). -/
def pyFloorMod (a b : ℚ) : ℚ := a - b * ⌊a / b⌋

/-- Decimal digit characters, used to model Python's rendering of
non-negative integers. -/
def digitChar (d : ℕ) : Char :=
  match d with
  | 0 => '0' | 1 => '1' | 2 => '2' | 3 => '3' | 4 => '4'
  | 5 => '5' | 6 => '6' | 7 => '7' | 8 => '8' | _ => '9'

/-- Fuelled helper for `natToChars`; the fuel only needs to exceed the number
of decimal digits, and is kept structural so that proofs can evaluate it. -/
def natToCharsAux : ℕ → ℕ → Str
  | 0, _ => []
  | fuel + 1, n =>
    if n < 10 then [digitChar n]
    else natToCharsAux fuel (n / 10) ++ [digitChar (n % 10)]

/-- Decimal rendering of a natural number (no sign, no padding), as Python
`str` renders a non-negative `int`. -/
def natToChars (n : ℕ) : Str := natToCharsAux (n + 1) n

/-- Decimal rendering of an integer, as Python `str` renders an `int`. -/
def intToChars (n : ℤ) : Str :=
  if n < 0 then '-' :: natToChars n.natAbs else natToChars n.toNat

/-- Python `f"{n:02d}"`: pad the decimal rendering with zeros on the left up
to width 2 (a sign counts toward the width). -/
def pad2 (n : ℤ) : Str :=
  let s := intToChars n
  if s.length < 2 then '0' :: s else s

/-- Whitespace accepted (and stripped) by Python `int()`. -/
def isPySpace (c : Char) : Bool :=
  c = ' ' || c = '\t' || c = '\n' || c = '\r' || c = '\x0b' || c = '\x0c'

/-- Strip leading and trailing whitespace, as Python `int()` does before
reading the digits. -/
def pyStrip (l : Str) : Str :=
  ((l.dropWhile isPySpace).reverse.dropWhile isPySpace).reverse

/-- Numeric value of a digit character. -/
def digitVal (c : Char) : ℕ := c.toNat - '0'.toNat

/-- Value of a list of digit characters read in base 10. -/
def digitsVal (l : Str) : ℕ := l.foldl (fun a c => 10 * a + digitVal c) 0

/-- The body of a Python integer literal: a non-empty run of decimal
digits. -/
def pyDigits (l : Str) : Bool := !l.isEmpty && l.all Char.isDigit

/-- Python `int(s)` on a string: strip surrounding whitespace, allow one
optional sign, then require a non-empty run of decimal digits; `none`
models the `ValueError` that `int` raises otherwise. -/
def pyParseInt (l : Str) : Option ℤ :=
  match pyStrip l with
  | '+' :: ds => if pyDigits ds then some (digitsVal ds) else none
  | '-' :: ds => if pyDigits ds then some (-(digitsVal ds : ℤ)) else none
  | ds => if pyDigits ds then some (digitsVal ds) else none

/-- Python `s.split(':')`: cut at every colon, keeping empty pieces, so the
result always has one more piece than the string has colons. -/
def splitColon : Str → List Str
  | [] => [[]]
  | c :: rest =>
    if c = ':' then [] :: splitColon rest
    else
      match splitColon rest with
      | [] => [[c]]
      | p :: ps => (c :: p) :: ps

/-- `map(int, parts)` with Python's exception propagation: all parts parse,
or the whole conversion fails. -/
def parseIntList : List Str → Option (List ℤ)
  | [] => some []
  | p :: ps =>
    match pyParseInt p, parseIntList ps with
    | some v, some vs => some (v :: vs)
    | _, _ => none

/-- The body of `timecode_to_seconds` (src/timecode_utils.py lines 94-102)
before the enclosing `try`/`except`: split on ':', require exactly 4 parts,
convert each with `int`, and combine at the hard-coded 24 fps. An `error`
result models the raised `ValueError`. -/
def timecode_to_seconds_core (tc : Str) : Except String ℚ :=
  let parts := splitColon tc
  if parts.length ≠ 4 then .error "Invalid timecode format"
  else
    match parseIntList parts with
    | some [h, m, s, f] =>
      .ok ((h : ℚ) * 3600 + (m : ℚ) * 60 + (s : ℚ) + (f : ℚ) / 24)
    | _ => .error "invalid literal for int with base 10"

/-- `timecode_to_seconds` (src/timecode_utils.py lines 84-106): any failure
inside the body is caught, logged, and replaced by the `0.0` sentinel. -/
def timecode_to_seconds (tc : Str) : ℚ :=
  match timecode_to_seconds_core tc with
  | .ok v => v
  | .error _ => 0

/-- `seconds_to_timecode` (src/timecode_utils.py lines 109-130):
`hours = int(seconds // 3600)`, `minutes = int((seconds % 3600) // 60)`,
`secs = int(seconds % 60)`, `frames = int((seconds % 1) * fps)`, each
rendered zero-padded to two digits and joined with colons. -/
def seconds_to_timecode (seconds : ℚ) (fps : ℚ) : Str :=
  let hours : ℤ := ⌊seconds / 3600⌋
  let minutes : ℤ := ⌊pyFloorMod seconds 3600 / 60⌋
  let secs : ℤ := pyInt (pyFloorMod seconds 60)
  let frames : ℤ := pyInt (pyFloorMod seconds 1 * fps)
  pad2 hours ++ ':' :: pad2 minutes ++ ':' :: pad2 secs ++ ':' :: pad2 frames

/-- Truthiness test of `calculate_sync_offsets` (src/timecode_utils.py lines
148-153): a present, non-empty timecode string is converted with
`timecode_to_seconds`; a missing (`None`) or empty one falls to the `0.0`
default with a logged warning. -/
def truthySeconds : Option Str → ℚ
  | some tc => if tc.isEmpty then 0 else timecode_to_seconds tc
  | none => 0

/-- Python `min` over a list of values; the `[]` case yields `0` and is never
reached by the source, which returns early on an empty dict. -/
def listMin : List ℚ → ℚ
  | [] => 0
  | x :: xs => xs.foldl min x

/-- `calculate_sync_offsets` (src/timecode_utils.py lines 133-166): convert
every angle's timecode to seconds, take the minimum as the anchor, and map
each angle to its distance from the anchor.  Python dicts are insertion
ordered, so they are modelled as association lists. -/
def calculate_sync_offsets (angle_timecodes : List (String × Option Str)) :
    List (String × ℚ) :=
  if angle_timecodes.isEmpty then []
  else
    let angle_seconds := angle_timecodes.map (fun p => (p.1, truthySeconds p.2))
    let earliest := listMin (angle_seconds.map Prod.snd)
    angle_seconds.map (fun p => (p.1, p.2 - earliest))

/-- The extension allow-list of `get_multicam_sync_data`
(src/timecode_utils.py line 186). -/
def videoExtsSync : List String := [".mp4", ".mov", ".mxf", ".avi"]

/-- Python `str.upper` on one ASCII character. -/
def pyUpperChar (c : Char) : Char :=
  if 'a' ≤ c && c ≤ 'z' then Char.ofNat (c.toNat - 32) else c

/-- Python `ext.upper()` for the ASCII extension strings of the source. -/
def strUpper (s : String) : Str := s.toList.map pyUpperChar

/-- One `folder.glob` pattern of the source: a file name matches `*{ext}` or
`*{ext.upper()}`. -/
def hasExt (name ext : String) : Bool :=
  ext.toList.isSuffixOf name.toList || (strUpper ext).isSuffixOf name.toList

/-- A file name the sync scan counts as video footage. -/
def isSyncVideoFile (name : String) : Bool := videoExtsSync.any (hasExt name)

/-- `sorted(video_files)[0]`: the lexicographically smallest name, or `none`
for an empty list. -/
def minString? : List String → Option String
  | [] => none
  | x :: xs => some (xs.foldl min x)

/-- One angle's sync record (the per-angle dicts built by
`get_multicam_sync_data`). -/
structure AngleSyncInfo where
  timecode : Option Str
  first_file : Option String
  offset : ℚ
deriving DecidableEq

/-- First pass of `get_multicam_sync_data` (src/timecode_utils.py lines
181-209) for one angle: an angle whose folder holds no video files gets the
degraded record; otherwise the first sorted file is probed for a timecode.
`probe` stands for the external `get_video_timecode` collaborator. -/
def mkSyncEntry (probe : String → Option Str) (p : String × List String) :
    String × AngleSyncInfo :=
  match minString? (p.2.filter isSyncVideoFile) with
  | none => (p.1, ⟨none, none, 0⟩)
  | some first => (p.1, ⟨probe first, some first, 0⟩)

/-- `get_multicam_sync_data` (src/timecode_utils.py lines 169-219): collect
per-angle sync records, then overwrite each angle's offset with the one
`calculate_sync_offsets` computed (defaulting to `0.0` for a missing key),
modelling the folder contents as lists of file names. -/
def get_multicam_sync_data (probe : String → Option Str)
    (camera_folders : List (String × List String)) : List (String × AngleSyncInfo) :=
  let sync_data := camera_folders.map (mkSyncEntry probe)
  let offsets := calculate_sync_offsets (sync_data.map (fun p => (p.1, p.2.timecode)))
  sync_data.map (fun p => (p.1, ⟨p.2.timecode, p.2.first_file, (offsets.lookup p.1).getD 0⟩))

/-- One script segment as the XML builder consumes it (the dicts of
`script["segments"]`): in multicam scripts the `camera_angle` key is present,
in single-camera scripts it is not used. -/
structure Segment where
  text : String
  start_time : ℚ
  end_time : ℚ
  duration : ℚ
  source_video : String
  camera_angle : String
deriving DecidableEq

/-- One `<clipitem>` placed on a timeline track, keeping the numeric fields
of the XML element plus the identifiers that go into its `id` attribute. -/
structure TimelineClip where
  clip_name : String
  idx : ℕ
  duration : ℤ
  timeline_start : ℤ
  timeline_end : ℤ
  in_frame : ℤ
  out_frame : ℤ
  file_id : ℕ
  track_index : Option ℕ
deriving DecidableEq

/-- The timeline loop of `_generate_premiere_xml` (src/xml_builder.py lines
466-492): `i` is the `enumerate` index, `pos` the running `timeline_pos` in
seconds; each segment becomes one clip with truncated frame numbers and the
cursor advances by the segment's `duration` field. -/
def programTrackGo (videoFiles : List String) : ℕ → ℚ → List Segment → List TimelineClip
  | _, _, [] => []
  | i, pos, seg :: rest =>
    let video_idx := videoFiles.indexOf seg.source_video + 1
    let start_frame := pyInt (seg.start_time * 24)
    let end_frame := pyInt (seg.end_time * 24)
    let duration_frames := end_frame - start_frame
    let timeline_start := pyInt (pos * 24)
    ⟨seg.source_video, i, duration_frames, timeline_start, timeline_start + duration_frames,
      start_frame, end_frame, video_idx, none⟩
      :: programTrackGo videoFiles (i + 1) (pos + seg.duration) rest

/-- The single-camera program track assembled from a segment list. -/
def programTrack (videoFiles : List String) (segments : List Segment) : List TimelineClip :=
  programTrackGo videoFiles 0 0 segments

/-- One entry of the `all_video_files` dict of
`_generate_multicam_premiere_xml`: a media file with its angle and numeric
file id. -/
structure MediaFile where
  name : String
  angle : String
  id : ℕ
deriving DecidableEq

/-- Python's `in` on strings: substring containment. -/
def strContains (hay needle : String) : Bool := decide (needle.toList <:+: hay.toList)

/-- The dict key `f"{angle_name}_{video_file.name}"` of `all_video_files`. -/
def fileKey (f : MediaFile) : String := f.angle ++ "_" ++ f.name

/-- The source-file resolution of the multicam program pass
(src/xml_builder.py lines 321-325): the first file whose angle matches and
whose key contains the segment's `source_video`. -/
def resolveSeg (files : List MediaFile) (seg : Segment) : Option MediaFile :=
  files.find? (fun f => f.angle == seg.camera_angle && strContains (fileKey f) seg.source_video)

/-- The program-track loop of `_generate_multicam_premiere_xml`
(src/xml_builder.py lines 318-359): an unresolvable segment is skipped with a
warning, advancing the `enumerate` index but not the timeline position. -/
def multicamProgramGo (files : List MediaFile) (angles : List String) :
    ℕ → ℚ → List Segment → List TimelineClip
  | _, _, [] => []
  | i, pos, seg :: rest =>
    match resolveSeg files seg with
    | none => multicamProgramGo files angles (i + 1) pos rest
    | some mf =>
      let start_frame := pyInt (seg.start_time * 24)
      let end_frame := pyInt (seg.end_time * 24)
      let duration_frames := end_frame - start_frame
      let timeline_start := pyInt (pos * 24)
      ⟨seg.source_video ++ " - " ++ seg.camera_angle, i, duration_frames, timeline_start,
        timeline_start + duration_frames, start_frame, end_frame, mf.id,
        some (angles.indexOf seg.camera_angle + 1)⟩
        :: multicamProgramGo files angles (i + 1) (pos + seg.duration) rest

/-- The multicam program track; `angles` is the key order of
`camera_folders`, used for the `sourcetrack/trackindex` field. -/
def multicamProgramTrack (files : List MediaFile) (angles : List String)
    (segments : List Segment) : List TimelineClip :=
  multicamProgramGo files angles 0 0 segments

/-- The per-angle source-track loop of `_generate_multicam_premiere_xml`
(src/xml_builder.py lines 272-295): files laid back to back with the fixed
72000-frame placeholder duration. -/
def angleTrackGo : ℤ → List MediaFile → List TimelineClip
  | _, [] => []
  | pos, f :: rest =>
    ⟨f.name, f.id, 72000, pos, pos + 72000, 0, 72000, f.id, none⟩
      :: angleTrackGo (pos + 72000) rest

/-- An angle's source track, starting at the angle's truncated offset in
frames (`int(offset * 24)`, line 263). -/
def angleTrack (offset_seconds : ℚ) (files : List MediaFile) : List TimelineClip :=
  angleTrackGo (pyInt (offset_seconds * 24)) files

/-- Frame tuple `(in, out, duration, start, end)` of a placed clip — the
purely positional content of a program-track clip. -/
def clipFrames (c : TimelineClip) : ℤ × ℤ × ℤ × ℤ × ℤ :=
  (c.in_frame, c.out_frame, c.duration, c.timeline_start, c.timeline_end)

/-- Placement rule of spec §4.3 written with the truncating conversion the
code performs (the amended form of claim C4): walk the spans in order with a
cursor in seconds and emit each span's frame tuple. -/
def specFloorPlacement (cursor : ℚ) : List Segment → List (ℤ × ℤ × ℤ × ℤ × ℤ)
  | [] => []
  | seg :: rest =>
    let inF := pyInt (seg.start_time * 24)
    let outF := pyInt (seg.end_time * 24)
    let dur := outF - inF
    let tls := pyInt (cursor * 24)
    (inF, outF, dur, tls, tls + dur) :: specFloorPlacement (cursor + seg.duration) rest

/-- Placement rule exactly as claim C4 states it: nearest-integer rounding of
the seconds-to-frames products. -/
def specRoundPlacement (cursor : ℚ) : List Segment → List (ℤ × ℤ × ℤ × ℤ × ℤ)
  | [] => []
  | seg :: rest =>
    let inF := round (seg.start_time * 24)
    let outF := round (seg.end_time * 24)
    let dur := outF - inF
    let tls := round (cursor * 24)
    (inF, outF, dur, tls, tls + dur) :: specRoundPlacement (cursor + seg.duration) rest

/-- Contiguity of a program track: each clip ends exactly where the next one
starts. -/
@[reducible] def Contiguous (l : List TimelineClip) : Prop :=
  List.Chain' (fun a b => a.timeline_end = b.timeline_start) l

/-- One transcript sentence as `generate_script` loads it; `stop` models the
sentence's `end` field. -/
structure Sentence where
  text : String
  start : ℚ
  stop : ℚ
  duration : ℚ
  source_video : String
deriving DecidableEq

/-- One segment of a generated script file; `camera_angle` is `some` only in
multicam scripts. -/
structure ScriptSegment where
  sequence : ℕ
  text : String
  start_time : ℚ
  end_time : ℚ
  duration : ℚ
  source_video : String
  camera_angle : Option String
deriving DecidableEq

/-- The range test `0 <= i < len(all_sentences)` of `generate_script`
(src/script_generator.py line 95); for the multicam variant
`i in index_to_sentence` is the same test because the dict keys are exactly
`0 .. total-1`. -/
def inRangeIdx (n : ℕ) (i : ℤ) : Bool := decide (0 ≤ i) && decide (i < (n : ℤ))

/-- Selection validation and script assembly of `generate_script`
(src/script_generator.py lines 94-118): out-of-range indices are dropped; if
none survive the run fails (and no script file is written); otherwise the
surviving indices pick sentences in their given order. -/
def generate_script_segments (all_sentences : List Sentence)
    (selected_indices : List ℤ) : Except String (List ScriptSegment) :=
  let valid_indices := selected_indices.filter (inRangeIdx all_sentences.length)
  if valid_indices.isEmpty then .error "No valid sentences selected"
  else
    let selected_sentences := valid_indices.filterMap (fun i => all_sentences.get? i.toNat)
    .ok (selected_sentences.enum.map (fun p =>
      ⟨p.1 + 1, p.2.text, p.2.start, p.2.stop, p.2.duration, p.2.source_video, none⟩))

/-- The `index_to_sentence` mapping of `generate_multicam_script`
(src/script_generator.py lines 163-185): all angles' sentences flattened in
angle order, each tagged with its angle; the global index is the list
position. -/
def indexToSentence (angle_content : List (String × List Sentence)) :
    List (Sentence × String) :=
  angle_content.flatMap (fun p => p.2.map (fun s => (s, p.1)))

/-- Selection validation and script assembly of `generate_multicam_script`
(src/script_generator.py lines 253-293). -/
def generate_multicam_script_segments (angle_content : List (String × List Sentence))
    (selected_indices : List ℤ) : Except String (List ScriptSegment) :=
  let flat := indexToSentence angle_content
  let valid_indices := selected_indices.filter (inRangeIdx flat.length)
  if valid_indices.isEmpty then .error "No valid sentences selected"
  else
    let selected := valid_indices.filterMap (fun i => flat.get? i.toNat)
    .ok (selected.enum.map (fun p =>
      ⟨p.1 + 1, p.2.1.text, p.2.1.start, p.2.1.stop, p.2.1.duration,
        p.2.1.source_video, some p.2.2⟩))

/-- The fixed header lines of `_generate_premiere_xml`
(src/xml_builder.py lines 385-394). -/
def xmlHeaderLines : List String :=
  ["<?xml version=\"1.0\" encoding=\"UTF-8\"?>",
   "<xmeml version=\"5\">",
   "  <project>",
   "    <name>AI Generated Edit</name>",
   "    <children>",
   "      <bin>",
   "        <name>Media</name>",
   "        <children>"]

/-- One media-bin `<clip>` block of `_generate_premiere_xml`
(src/xml_builder.py lines 401-444), with the `enumerate` position `idn`
already shifted to the 1-based id the source uses. -/
def mediaClipXml (idn : ℕ) (video_file file_url : String) : String :=
  "          <clip id=\"clip" ++ toString idn ++ "\">\n" ++
  "            <name>" ++ video_file ++ "</name>\n" ++
  "            <duration>72000</duration>\n" ++
  "            <rate>\n" ++
  "              <timebase>24</timebase>\n" ++
  "              <ntsc>FALSE</ntsc>\n" ++
  "            </rate>\n" ++
  "            <media>\n" ++
  "              <video>\n" ++
  "                <track>\n" ++
  "                  <clipitem id=\"clipitem" ++ toString idn ++ "\">\n" ++
  "                    <name>" ++ video_file ++ "</name>\n" ++
  "                    <duration>72000</duration>\n" ++
  "                    <rate>\n" ++
  "                      <timebase>24</timebase>\n" ++
  "                      <ntsc>FALSE</ntsc>\n" ++
  "                    </rate>\n" ++
  "                    <file id=\"file" ++ toString idn ++ "\">\n" ++
  "                      <name>" ++ video_file ++ "</name>\n" ++
  "                      <pathurl>file://localhost/" ++ file_url ++ "</pathurl>\n" ++
  "                      <rate>\n" ++
  "                        <timebase>24</timebase>\n" ++
  "                        <ntsc>FALSE</ntsc>\n" ++
  "                      </rate>\n" ++
  "                      <duration>72000</duration>\n" ++
  "                      <media>\n" ++
  "                        <video>\n" ++
  "                          <duration>72000</duration>\n" ++
  "                          <samplecharacteristics>\n" ++
  "                            <rate>\n" ++
  "                              <timebase>24</timebase>\n" ++
  "                              <ntsc>FALSE</ntsc>\n" ++
  "                            </rate>\n" ++
  "                            <width>1920</width>\n" ++
  "                            <height>1080</height>\n" ++
  "                          </samplecharacteristics>\n" ++
  "                        </video>\n" ++
  "                      </media>\n" ++
  "                    </file>\n" ++
  "                  </clipitem>\n" ++
  "                </track>\n" ++
  "              </video>\n" ++
  "            </media>\n" ++
  "          </clip>"

/-- The fixed sequence-header lines (src/xml_builder.py lines 450-462). -/
def sequenceHeaderLines : List String :=
  ["        </children>",
   "      </bin>",
   "      <sequence>",
   "        <name>AI Edit Timeline</name>",
   "        <duration>72000</duration>",
   "        <rate>",
   "          <timebase>24</timebase>",
   "          <ntsc>FALSE</ntsc>",
   "        </rate>",
   "        <media>",
   "          <video>",
   "            <track>"]

/-- One timeline `<clipitem>` block (src/xml_builder.py lines 477-489),
rendered from the placed clip. -/
def timelineClipXml (c : TimelineClip) : String :=
  "              <clipitem id=\"timeline_clip" ++ toString (c.idx + 1) ++ "\">\n" ++
  "                <name>" ++ c.clip_name ++ "</name>\n" ++
  "                <duration>" ++ toString c.duration ++ "</duration>\n" ++
  "                <rate>\n" ++
  "                  <timebase>24</timebase>\n" ++
  "                  <ntsc>FALSE</ntsc>\n" ++
  "                </rate>\n" ++
  "                <start>" ++ toString c.timeline_start ++ "</start>\n" ++
  "                <end>" ++ toString c.timeline_end ++ "</end>\n" ++
  "                <in>" ++ toString c.in_frame ++ "</in>\n" ++
  "                <out>" ++ toString c.out_frame ++ "</out>\n" ++
  "                <file id=\"file" ++ toString c.file_id ++ "\"/>\n" ++
  "              </clipitem>"

/-- The fixed closing lines (src/xml_builder.py lines 495-503). -/
def xmlClosingLines : List String :=
  ["            </track>",
   "          </video>",
   "        </media>",
   "      </sequence>",
   "    </children>",
   "  </project>",
   "</xmeml>"]

/-- `_generate_premiere_xml` (src/xml_builder.py lines 378-508) as a pure
document builder.  `videoFiles` stands for `list({seg["source_video"] for seg
in segments})`: Python enumerates that set in a hash-salted order, so the
order is passed in explicitly; `videoDir` is taken as an absolute POSIX
path, so `Path(video_dir, f).absolute()` is plain concatenation. -/
def generatePremiereXml (segments : List Segment) (videoDir : String)
    (videoFiles : List String) : String :=
  let mediaLines := videoFiles.enum.map (fun p =>
    mediaClipXml (p.1 + 1) p.2 ((videoDir ++ "/" ++ p.2).replace "\\" "/"))
  let timelineLines := (programTrack videoFiles segments).map timelineClipXml
  String.intercalate "\n"
    (xmlHeaderLines ++ mediaLines ++ sequenceHeaderLines ++ timelineLines ++ xmlClosingLines)

/-- A possible enumeration order of the Python set `{seg["source_video"]}`:
some permutation of the distinct source names. -/
@[reducible] def IsSetOrder (xs order : List String) : Prop := order.Perm xs.dedup

example : timecode_to_seconds "10:15:30:12".toList = 36930 + 1/2 := by decide

/-- A seconds value that lies exactly on a 24 fps frame boundary. -/
def FrameAligned (q : ℚ) : Prop := ∃ z : ℤ, q = (z : ℚ) / 24

lemma pyInt_intCast (z : ℤ) : pyInt (z : ℚ) = z := by
  unfold pyInt
  split <;> simp

lemma pyInt_aligned_mul24 (z : ℤ) : pyInt (((z : ℚ) / 24) * 24) = z := by
  rw [div_mul_cancel₀ _ (by norm_num : (24 : ℚ) ≠ 0), pyInt_intCast]

lemma programTrackGo_map_clipFrames (vf : List String) :
    ∀ (segs : List Segment) (i : ℕ) (pos : ℚ),
      (programTrackGo vf i pos segs).map clipFrames = specFloorPlacement pos segs := by
  intro segs
  induction segs with
  | nil => intro i pos; rfl
  | cons seg rest ih => intro i pos; simp [programTrackGo, specFloorPlacement, clipFrames, ih]

lemma multicamProgramGo_map_clipFrames (files : List MediaFile) (angles : List String) :
    ∀ (segs : List Segment) (i : ℕ) (pos : ℚ),
      (multicamProgramGo files angles i pos segs).map clipFrames =
        specFloorPlacement pos (segs.filter (fun s => (resolveSeg files s).isSome)) := by
  intro segs
  induction segs with
  | nil => intro i pos; rfl
  | cons seg rest ih =>
    intro i pos
    cases h : resolveSeg files seg with
    | none => simp [multicamProgramGo, h, List.filter_cons, ih]
    | some mf => simp [multicamProgramGo, h, List.filter_cons, specFloorPlacement, clipFrames, ih]

lemma programTrackGo_length (vf : List String) :
    ∀ (segs : List Segment) (i : ℕ) (pos : ℚ),
      (programTrackGo vf i pos segs).length = segs.length := by
  intro segs
  induction segs with
  | nil => intro i pos; rfl
  | cons seg rest ih => intro i pos; simp [programTrackGo, ih]

lemma specFloorPlacement_length :
    ∀ (segs : List Segment) (pos : ℚ), (specFloorPlacement pos segs).length = segs.length := by
  intro segs
  induction segs with
  | nil => intro pos; rfl
  | cons seg rest ih => intro pos; simp [specFloorPlacement, ih]

lemma multicamProgramGo_length (files : List MediaFile) (angles : List String)
    (segs : List Segment) (i : ℕ) (pos : ℚ) :
    (multicamProgramGo files angles i pos segs).length =
      (segs.filter (fun s => (resolveSeg files s).isSome)).length := by
  have h := congrArg List.length (multicamProgramGo_map_clipFrames files angles segs i pos)
  simpa [specFloorPlacement_length] using h

/-- Well-formedness of a span list taken from the spec's ContentSpan
invariant plus frame alignment: every span's times sit on 24 fps frame
boundaries and its `duration` field is consistent. -/
def AlignedSpans (segs : List Segment) : Prop :=
  ∀ s ∈ segs, FrameAligned s.start_time ∧ FrameAligned s.end_time ∧
    s.duration = s.end_time - s.start_time

lemma specFloorPlacement_chain :
    ∀ (segs : List Segment), AlignedSpans segs → ∀ z : ℤ,
      List.Chain' (fun a b => a.2.2.2.2 = b.2.2.2.1)
        (specFloorPlacement ((z : ℚ) / 24) segs) ∧
      ∀ t ∈ (specFloorPlacement ((z : ℚ) / 24) segs).head?, t.2.2.2.1 = z := by
  intro segs
  induction segs with
  | nil => intro _ z; simp [specFloorPlacement]
  | cons seg rest ih =>
    intro hA z
    obtain ⟨⟨a, ha⟩, ⟨b, hb⟩, hdur⟩ := hA seg (List.mem_cons_self seg rest)
    have hrest : AlignedSpans rest := fun s hs => hA s (List.mem_cons_of_mem seg hs)
    have hpos : (z : ℚ) / 24 + seg.duration = ((z + b - a : ℤ) : ℚ) / 24 := by
      rw [hdur, ha, hb]
      push_cast
      ring
    have ihz := ih hrest (z + b - a)
    have hcons : specFloorPlacement ((z : ℚ) / 24) (seg :: rest) =
        (a, b, b - a, z, z + (b - a)) ::
          specFloorPlacement (((z + b - a : ℤ) : ℚ) / 24) rest := by
      simp only [specFloorPlacement]
      rw [ha, hb, pyInt_aligned_mul24, pyInt_aligned_mul24, pyInt_aligned_mul24, hpos]
    rw [hcons]
    constructor
    · rw [List.chain'_cons']
      refine ⟨?_, ihz.1⟩
      intro t ht
      have hstart := ihz.2 t ht
      simp only at hstart ⊢
      omega
    · intro t ht
      simp only [List.head?_cons, Option.mem_def, Option.some.injEq] at ht
      subst ht
      rfl

lemma chain_of_map_clipFrames (L : List TimelineClip)
    (h : List.Chain' (fun a b => a.2.2.2.2 = b.2.2.2.1) (L.map clipFrames)) :
    Contiguous L := by
  rw [List.chain'_map] at h
  exact h

/-- Claim C1 (corrected): unconditionally, the single-camera program track
carries one clip per span and the multicam program track one clip per
resolvable span (unresolvable spans are skipped); when additionally every
span is frame-aligned with a consistent duration field, consecutive clips
are contiguous on both program tracks. -/
theorem claim_C1_amended (vf : List String) (files : List MediaFile)
    (angles : List String) (segs : List Segment) :
    (programTrack vf segs).length = segs.length ∧
    (multicamProgramTrack files angles segs).length =
      (segs.filter (fun s => (resolveSeg files s).isSome)).length ∧
    (AlignedSpans segs →
      Contiguous (programTrack vf segs) ∧
      Contiguous (multicamProgramTrack files angles segs)) := by
  refine ⟨programTrackGo_length vf segs 0 0,
    multicamProgramGo_length files angles segs 0 0, ?_⟩
  intro hA
  have h0 : (0 : ℚ) = ((0 : ℤ) : ℚ) / 24 := by norm_num
  constructor
  · apply chain_of_map_clipFrames
    rw [programTrack, programTrackGo_map_clipFrames, h0]
    exact (specFloorPlacement_chain segs hA 0).1
  · apply chain_of_map_clipFrames
    rw [multicamProgramTrack, multicamProgramGo_map_clipFrames, h0]
    have hA' : AlignedSpans (segs.filter (fun s => (resolveSeg files s).isSome)) :=
      fun s hs => hA s (List.mem_of_mem_filter hs)
    exact (specFloorPlacement_chain _ hA' 0).1

/-- Witness for claim C1's amended theorem at a concrete aligned two-span
script. -/
theorem claim_C1_witness :
    (programTrack ["v.mp4"] [⟨"a", 0, 1, 1, "v.mp4", "A"⟩, ⟨"b", 1, 2, 1, "v.mp4", "A"⟩]).length =
      [⟨"a", 0, 1, 1, "v.mp4", "A"⟩, (⟨"b", 1, 2, 1, "v.mp4", "A"⟩ : Segment)].length ∧
    (multicamProgramTrack [⟨"v.mp4", "A", 1⟩] ["A"]
        [⟨"a", 0, 1, 1, "v.mp4", "A"⟩, ⟨"b", 1, 2, 1, "v.mp4", "A"⟩]).length =
      ([⟨"a", 0, 1, 1, "v.mp4", "A"⟩, (⟨"b", 1, 2, 1, "v.mp4", "A"⟩ : Segment)].filter
        (fun s => (resolveSeg [⟨"v.mp4", "A", 1⟩] s).isSome)).length ∧
    (Contiguous (programTrack ["v.mp4"]
        [⟨"a", 0, 1, 1, "v.mp4", "A"⟩, ⟨"b", 1, 2, 1, "v.mp4", "A"⟩]) ∧
      Contiguous (multicamProgramTrack [⟨"v.mp4", "A", 1⟩] ["A"]
        [⟨"a", 0, 1, 1, "v.mp4", "A"⟩, ⟨"b", 1, 2, 1, "v.mp4", "A"⟩])) :=
  ⟨(claim_C1_amended ["v.mp4"] [⟨"v.mp4", "A", 1⟩] ["A"]
      [⟨"a", 0, 1, 1, "v.mp4", "A"⟩, ⟨"b", 1, 2, 1, "v.mp4", "A"⟩]).1,
   (claim_C1_amended ["v.mp4"] [⟨"v.mp4", "A", 1⟩] ["A"]
      [⟨"a", 0, 1, 1, "v.mp4", "A"⟩, ⟨"b", 1, 2, 1, "v.mp4", "A"⟩]).2.1,
   (claim_C1_amended ["v.mp4"] [⟨"v.mp4", "A", 1⟩] ["A"]
      [⟨"a", 0, 1, 1, "v.mp4", "A"⟩, ⟨"b", 1, 2, 1, "v.mp4", "A"⟩]).2.2
    (by
      intro s hs
      fin_cases hs
      · exact ⟨⟨0, by norm_num⟩, ⟨24, by norm_num⟩, by norm_num⟩
      · exact ⟨⟨24, by norm_num⟩, ⟨48, by norm_num⟩, by norm_num⟩)⟩

/-- Counterexample for claim C1 as stated: a two-span script whose spans
satisfy the ContentSpan duration invariant but whose times are not
frame-aligned produces a program track with a gap (clip 1 ends at frame 3,
clip 2 starts at frame 2). -/
theorem claim_C1_counterexample :
    (∀ s ∈ ([⟨"a", 9/10, 1, 1/10, "v.mp4", "A"⟩,
             ⟨"b", 1, 2, 1, "v.mp4", "A"⟩] : List Segment),
        s.duration = s.end_time - s.start_time) ∧
    ¬ Contiguous (programTrack ["v.mp4"]
        [⟨"a", 9/10, 1, 1/10, "v.mp4", "A"⟩, ⟨"b", 1, 2, 1, "v.mp4", "A"⟩]) := by
  constructor
  · intro s hs
    fin_cases hs <;> norm_num
  · intro h
    rw [show programTrack ["v.mp4"]
          [⟨"a", 9/10, 1, 1/10, "v.mp4", "A"⟩, ⟨"b", 1, 2, 1, "v.mp4", "A"⟩] =
        [⟨"v.mp4", 0, 3, 0, 3, 21, 24, 1, none⟩,
         ⟨"v.mp4", 1, 24, 2, 26, 24, 48, 1, none⟩] from by decide] at h
    exact absurd (List.chain'_cons.mp h).1 (by decide)

/-- Claim C4 (corrected): the placed frame tuples of both program-track
assemblies follow the spec's cursor walk with the truncating `int()`
conversion (not nearest-integer rounding); the multicam pass walks exactly
the resolvable spans. -/
theorem claim_C4_amended (vf : List String) (files : List MediaFile)
    (angles : List String) (segs : List Segment) :
    (programTrack vf segs).map clipFrames = specFloorPlacement 0 segs ∧
    (multicamProgramTrack files angles segs).map clipFrames =
      specFloorPlacement 0 (segs.filter (fun s => (resolveSeg files s).isSome)) :=
  ⟨programTrackGo_map_clipFrames vf segs 0 0,
   multicamProgramGo_map_clipFrames files angles segs 0 0⟩

/-- Counterexample for claim C4 as stated: for a span starting at 0.9 s the
code truncates `0.9 * 24 = 21.6` to in-frame 21, while nearest-integer
rounding as claimed would give 22. -/
theorem claim_C4_counterexample :
    (programTrack ["v.mp4"] [⟨"a", 9/10, 1, 1/10, "v.mp4", "A"⟩]).map clipFrames ≠
      specRoundPlacement 0 [⟨"a", 9/10, 1, 1/10, "v.mp4", "A"⟩] ∧
    round ((9 : ℚ)/10 * 24) = 22 ∧
    (programTrack ["v.mp4"] [⟨"a", 9/10, 1, 1/10, "v.mp4", "A"⟩]).map
      TimelineClip.in_frame = [21] := by
  refine ⟨by decide, ?_, by decide⟩
  rw [show ((9 : ℚ)/10 * 24) = 108/5 by norm_num]
  rw [round_eq]
  norm_num

lemma programTrackGo_duration_preserved (vf : List String) :
    ∀ (segs : List Segment) (i : ℕ) (pos : ℚ) (c : TimelineClip),
      c ∈ programTrackGo vf i pos segs →
      c.out_frame - c.in_frame = c.timeline_end - c.timeline_start := by
  intro segs
  induction segs with
  | nil => intro i pos c hc; cases hc
  | cons seg rest ih =>
    intro i pos c hc
    rcases List.mem_cons.mp hc with h | h
    · subst h; simp
    · exact ih (i + 1) (pos + seg.duration) c h

lemma multicamProgramGo_duration_preserved (files : List MediaFile) (angles : List String) :
    ∀ (segs : List Segment) (i : ℕ) (pos : ℚ) (c : TimelineClip),
      c ∈ multicamProgramGo files angles i pos segs →
      c.out_frame - c.in_frame = c.timeline_end - c.timeline_start := by
  intro segs
  induction segs with
  | nil => intro i pos c hc; cases hc
  | cons seg rest ih =>
    intro i pos c hc
    rw [multicamProgramGo] at hc
    cases h : resolveSeg files seg with
    | none => rw [h] at hc; exact ih (i + 1) pos c hc
    | some mf =>
      rw [h] at hc
      rcases List.mem_cons.mp hc with hcc | hcc
      · subst hcc; simp
      · exact ih (i + 1) (pos + seg.duration) c hcc

lemma angleTrackGo_duration_preserved :
    ∀ (fs : List MediaFile) (pos : ℤ) (c : TimelineClip),
      c ∈ angleTrackGo pos fs →
      c.out_frame - c.in_frame = c.timeline_end - c.timeline_start := by
  intro fs
  induction fs with
  | nil => intro pos c hc; cases hc
  | cons f rest ih =>
    intro pos c hc
    rcases List.mem_cons.mp hc with h | h
    · subst h; simp
    · exact ih (pos + 72000) c h

/-- Claim C8 (confirmed): every clip emitted on any track — single-camera
program track, multicam program track, or a multicam per-angle source
track — occupies exactly as many timeline frames as it takes from its
source. -/
theorem claim_C8_duration_preservation (vf : List String) (files : List MediaFile)
    (angles : List String) (segs : List Segment) (off : ℚ) (fs : List MediaFile)
    (c : TimelineClip)
    (h : c ∈ programTrack vf segs ∨ c ∈ multicamProgramTrack files angles segs ∨
      c ∈ angleTrack off fs) :
    c.out_frame - c.in_frame = c.timeline_end - c.timeline_start := by
  rcases h with h | h | h
  · exact programTrackGo_duration_preserved vf segs 0 0 c h
  · exact multicamProgramGo_duration_preserved files angles segs 0 0 c h
  · exact angleTrackGo_duration_preserved fs (pyInt (off * 24)) c h

/-- Witness for claim C8 at a concrete one-span script. -/
theorem claim_C8_witness :
    (⟨"v.mp4", 0, 24, 0, 24, 0, 24, 1, none⟩ : TimelineClip).out_frame -
      (⟨"v.mp4", 0, 24, 0, 24, 0, 24, 1, none⟩ : TimelineClip).in_frame =
    (⟨"v.mp4", 0, 24, 0, 24, 0, 24, 1, none⟩ : TimelineClip).timeline_end -
      (⟨"v.mp4", 0, 24, 0, 24, 0, 24, 1, none⟩ : TimelineClip).timeline_start :=
  claim_C8_duration_preservation ["v.mp4"] [] [] [⟨"a", 0, 1, 1, "v.mp4", "A"⟩] 0 []
    ⟨"v.mp4", 0, 24, 0, 24, 0, 24, 1, none⟩ (Or.inl (by decide))

/-- Claim C10 (confirmed): skipping an unresolvable segment in the multicam
program pass leaves the frame layout identical to the assembly without that
segment — the next resolved clip lands where the skipped one would have
started, and no gap is introduced. -/
theorem claim_C10_skip_no_gap (files : List MediaFile) (angles : List String)
    (xs ys : List Segment) (bad : Segment) (hbad : resolveSeg files bad = none) :
    (multicamProgramTrack files angles (xs ++ bad :: ys)).map clipFrames =
      (multicamProgramTrack files angles (xs ++ ys)).map clipFrames := by
  rw [multicamProgramTrack, multicamProgramTrack,
    multicamProgramGo_map_clipFrames, multicamProgramGo_map_clipFrames]
  congr 1
  simp [List.filter_append, List.filter_cons, hbad]

/-- Witness for claim C10: a segment shot on an angle with no media resolves
to nothing and drops out of the layout. -/
theorem claim_C10_witness :
    (multicamProgramTrack [⟨"v.mp4", "A", 1⟩] ["A", "B"]
        ([⟨"a", 0, 1, 1, "v.mp4", "A"⟩] ++ ⟨"x", 0, 1, 1, "v.mp4", "B"⟩ ::
          [⟨"b", 1, 2, 1, "v.mp4", "A"⟩])).map clipFrames =
      (multicamProgramTrack [⟨"v.mp4", "A", 1⟩] ["A", "B"]
        ([⟨"a", 0, 1, 1, "v.mp4", "A"⟩] ++ [⟨"b", 1, 2, 1, "v.mp4", "A"⟩])).map clipFrames :=
  claim_C10_skip_no_gap [⟨"v.mp4", "A", 1⟩] ["A", "B"]
    [⟨"a", 0, 1, 1, "v.mp4", "A"⟩] [⟨"b", 1, 2, 1, "v.mp4", "A"⟩]
    ⟨"x", 0, 1, 1, "v.mp4", "B"⟩ (by decide)
example : seconds_to_timecode (36930 + 1/2) 24 = "10:15:30:12".toList := by decide
example : timecode_to_seconds "bogus".toList = 0 := by decide
example : timecode_to_seconds "1:2:3".toList = 0 := by decide
example : timecode_to_seconds " 1:02:03:10".toList = 3723 + 5/12 := by decide

lemma parseIntList_length : ∀ (l : List Str) (r : List ℤ),
    parseIntList l = some r → r.length = l.length := by
  intro l
  induction l with
  | nil => intro r hr; simp [parseIntList] at hr; simp [← hr]
  | cons p ps ih =>
    intro r hr
    rw [parseIntList] at hr
    cases hv : pyParseInt p with
    | none => rw [hv] at hr; cases hr
    | some v =>
      rw [hv] at hr
      cases hvs : parseIntList ps with
      | none => rw [hvs] at hr; cases hr
      | some vs =>
        rw [hvs] at hr
        cases hr
        simp [ih vs hvs]

/-- Claim C5 (confirmed): `timecode_to_seconds` is total over its boundary —
if the string splits on ':' into exactly four integer parts it returns
`H*3600 + M*60 + S + F/24`, and on every other input (wrong part count or an
unparsable part) it returns the logged `0.0` sentinel instead of raising. -/
theorem claim_C5_total_conversion (tc : Str) :
    (∀ h m s f : ℤ, parseIntList (splitColon tc) = some [h, m, s, f] →
      timecode_to_seconds tc = (h : ℚ) * 3600 + (m : ℚ) * 60 + (s : ℚ) + (f : ℚ) / 24) ∧
    ((splitColon tc).length ≠ 4 ∨ parseIntList (splitColon tc) = none →
      timecode_to_seconds tc = 0) := by
  constructor
  · intro h m s f hp
    have hlen : (splitColon tc).length = 4 := by
      have := parseIntList_length _ _ hp
      simpa using this.symm
    rw [timecode_to_seconds, timecode_to_seconds_core]
    simp only [hlen, hp]
    norm_num
  · intro hor
    rw [timecode_to_seconds]
    simp only [timecode_to_seconds_core]
    rcases hor with hlen | hnone
    · rw [if_pos hlen]
    · by_cases hl : (splitColon tc).length ≠ 4
      · rw [if_pos hl]
      · rw [if_neg hl, hnone]

/-- Witness for claim C5: one well-formed and one malformed timecode. -/
theorem claim_C5_witness :
    timecode_to_seconds "10:15:30:12".toList =
      (10 : ℚ) * 3600 + (15 : ℚ) * 60 + (30 : ℚ) + (12 : ℚ) / 24 ∧
    timecode_to_seconds "10:15:30".toList = 0 :=
  ⟨(claim_C5_total_conversion "10:15:30:12".toList).1 10 15 30 12 (by decide),
   (claim_C5_total_conversion "10:15:30".toList).2 (Or.inl (by decide))⟩

/-- Default sentence used only to state total indexing in claim C6. -/
def defaultSentence : Sentence := ⟨"", 0, 0, 0, ""⟩

/-- Default tagged sentence used only to state total indexing in claim C6. -/
def defaultTagged : Sentence × String := (defaultSentence, "")

lemma filterMap_get_eq_map_getD {α : Type} (l : List α) (d : α) :
    ∀ v : List ℤ, (∀ i ∈ v, inRangeIdx l.length i = true) →
      v.filterMap (fun i => l.get? i.toNat) = v.map (fun i => l.getD i.toNat d) := by
  intro v
  induction v with
  | nil => intro _; rfl
  | cons i rest ih =>
    intro hv
    have hi := hv i (List.mem_cons_self i rest)
    have hlt : i.toNat < l.length := by
      simp only [inRangeIdx, Bool.and_eq_true, decide_eq_true_eq] at hi
      omega
    have hsome : l.get? i.toNat = some (l.getD i.toNat d) := by
      rw [List.getD_eq_getElem?_getD, ← List.get?_eq_getElem?]
      cases hg : l.get? i.toNat with
      | none =>
        rw [List.get?_eq_none] at hg
        omega
      | some a => rfl
    rw [List.filterMap_cons, hsome, List.map_cons,
      ih (fun j hj => hv j (List.mem_cons_of_mem i hj))]

/-- Claim C6 (confirmed): in both script generators every out-of-range
selected index is silently dropped, the surviving indices keep their given
order (each picking its sentence, renumbered from 1), and if nothing
survives the generator fails with an error so no script file is written. -/
theorem claim_C6_selection (S : List Sentence) (I : List ℤ)
    (AC : List (String × List Sentence)) (J : List ℤ) :
    (generate_script_segments S I = Except.error "No valid sentences selected" ↔
      I.filter (inRangeIdx S.length) = []) ∧
    (∀ segs, generate_script_segments S I = Except.ok segs →
      segs = (I.filter (inRangeIdx S.length)).enum.map (fun p =>
        ⟨p.1 + 1, (S.getD p.2.toNat defaultSentence).text,
          (S.getD p.2.toNat defaultSentence).start,
          (S.getD p.2.toNat defaultSentence).stop,
          (S.getD p.2.toNat defaultSentence).duration,
          (S.getD p.2.toNat defaultSentence).source_video, none⟩)) ∧
    (generate_multicam_script_segments AC J = Except.error "No valid sentences selected" ↔
      J.filter (inRangeIdx (indexToSentence AC).length) = []) ∧
    (∀ segs, generate_multicam_script_segments AC J = Except.ok segs →
      segs = (J.filter (inRangeIdx (indexToSentence AC).length)).enum.map (fun p =>
        ⟨p.1 + 1, ((indexToSentence AC).getD p.2.toNat defaultTagged).1.text,
          ((indexToSentence AC).getD p.2.toNat defaultTagged).1.start,
          ((indexToSentence AC).getD p.2.toNat defaultTagged).1.stop,
          ((indexToSentence AC).getD p.2.toNat defaultTagged).1.duration,
          ((indexToSentence AC).getD p.2.toNat defaultTagged).1.source_video,
          some ((indexToSentence AC).getD p.2.toNat defaultTagged).2⟩)) := by
  have hmemS : ∀ i ∈ I.filter (inRangeIdx S.length), inRangeIdx S.length i = true :=
    fun i hi => (List.mem_filter.mp hi).2
  have hmemM : ∀ j ∈ J.filter (inRangeIdx (indexToSentence AC).length),
      inRangeIdx (indexToSentence AC).length j = true :=
    fun j hj => (List.mem_filter.mp hj).2
  refine ⟨?_, ?_, ?_, ?_⟩
  · simp only [generate_script_segments]
    split_ifs with hv
    · simp only [List.isEmpty_iff] at hv
      simp [hv]
    · simp only [List.isEmpty_iff] at hv
      simp [hv]
  · intro segs hok
    simp only [generate_script_segments] at hok
    split_ifs at hok with hv
    rw [filterMap_get_eq_map_getD S defaultSentence _ hmemS, Except.ok.injEq] at hok
    rw [← hok, List.enum_map, List.map_map]
    rfl
  · simp only [generate_multicam_script_segments]
    split_ifs with hv
    · simp only [List.isEmpty_iff] at hv
      simp [hv]
    · simp only [List.isEmpty_iff] at hv
      simp [hv]
  · intro segs hok
    simp only [generate_multicam_script_segments] at hok
    split_ifs at hok with hv
    rw [filterMap_get_eq_map_getD (indexToSentence AC) defaultTagged _ hmemM,
      Except.ok.injEq] at hok
    rw [← hok, List.enum_map, List.map_map]
    rfl

/-- Witness for claim C6: one out-of-range index among valid ones, in both
generators. -/
theorem claim_C6_witness :
    ([⟨1, "t2", 2, 3, 1, "b.mp4", none⟩, ⟨2, "t0", 0, 1, 1, "a.mp4", none⟩] :
        List ScriptSegment) =
      (([2, 99, 0] : List ℤ).filter
          (inRangeIdx ([⟨"t0", 0, 1, 1, "a.mp4"⟩, ⟨"t1", 1, 2, 1, "a.mp4"⟩,
            ⟨"t2", 2, 3, 1, "b.mp4"⟩] : List Sentence).length)).enum.map (fun p =>
        ⟨p.1 + 1,
          (([⟨"t0", 0, 1, 1, "a.mp4"⟩, ⟨"t1", 1, 2, 1, "a.mp4"⟩,
            ⟨"t2", 2, 3, 1, "b.mp4"⟩] : List Sentence).getD p.2.toNat defaultSentence).text,
          (([⟨"t0", 0, 1, 1, "a.mp4"⟩, ⟨"t1", 1, 2, 1, "a.mp4"⟩,
            ⟨"t2", 2, 3, 1, "b.mp4"⟩] : List Sentence).getD p.2.toNat defaultSentence).start,
          (([⟨"t0", 0, 1, 1, "a.mp4"⟩, ⟨"t1", 1, 2, 1, "a.mp4"⟩,
            ⟨"t2", 2, 3, 1, "b.mp4"⟩] : List Sentence).getD p.2.toNat defaultSentence).stop,
          (([⟨"t0", 0, 1, 1, "a.mp4"⟩, ⟨"t1", 1, 2, 1, "a.mp4"⟩,
            ⟨"t2", 2, 3, 1, "b.mp4"⟩] : List Sentence).getD p.2.toNat defaultSentence).duration,
          (([⟨"t0", 0, 1, 1, "a.mp4"⟩, ⟨"t1", 1, 2, 1, "a.mp4"⟩,
            ⟨"t2", 2, 3, 1, "b.mp4"⟩] : List Sentence).getD p.2.toNat
              defaultSentence).source_video,
          none⟩) :=
  (claim_C6_selection
    [⟨"t0", 0, 1, 1, "a.mp4"⟩, ⟨"t1", 1, 2, 1, "a.mp4"⟩, ⟨"t2", 2, 3, 1, "b.mp4"⟩]
    [2, 99, 0] [] []).2.1
    [⟨1, "t2", 2, 3, 1, "b.mp4", none⟩, ⟨2, "t0", 0, 1, 1, "a.mp4", none⟩] (by rfl)

lemma foldl_min_le_acc : ∀ (xs : List ℚ) (a : ℚ), xs.foldl min a ≤ a := by
  intro xs
  induction xs with
  | nil => intro a; exact le_refl a
  | cons x rest ih =>
    intro a
    calc (x :: rest).foldl min a = rest.foldl min (min a x) := rfl
    _ ≤ min a x := ih (min a x)
    _ ≤ a := min_le_left a x

lemma foldl_min_le_mem : ∀ (xs : List ℚ) (a x : ℚ), x ∈ xs → xs.foldl min a ≤ x := by
  intro xs
  induction xs with
  | nil => intro a x hx; cases hx
  | cons y rest ih =>
    intro a x hx
    rcases List.mem_cons.mp hx with h | h
    · subst h
      calc (x :: rest).foldl min a = rest.foldl min (min a x) := rfl
      _ ≤ min a x := foldl_min_le_acc rest (min a x)
      _ ≤ x := min_le_right a x
    · exact ih (min a y) x h

lemma listMin_le (l : List ℚ) (x : ℚ) (hx : x ∈ l) : listMin l ≤ x := by
  cases l with
  | nil => cases hx
  | cons y ys =>
    rcases List.mem_cons.mp hx with h | h
    · subst h; exact foldl_min_le_acc ys x
    · exact foldl_min_le_mem ys y x h

lemma foldl_min_mem : ∀ (xs : List ℚ) (a : ℚ), xs.foldl min a ∈ a :: xs := by
  intro xs
  induction xs with
  | nil => intro a; exact List.mem_cons_self a []
  | cons x rest ih =>
    intro a
    rw [List.foldl_cons]
    have h := ih (min a x)
    rcases List.mem_cons.mp h with h1 | h1
    · rcases min_choice a x with hm | hm
      · rw [h1, hm]; exact List.mem_cons_self _ _
      · rw [h1, hm]; exact List.mem_cons_of_mem _ (List.mem_cons_self _ _)
    · exact List.mem_cons_of_mem _ (List.mem_cons_of_mem _ h1)

lemma listMin_mem (l : List ℚ) (h : l ≠ []) : listMin l ∈ l := by
  cases l with
  | nil => exact absurd rfl h
  | cons y ys => exact foldl_min_mem ys y

lemma foldl_min_sub : ∀ (xs : List ℚ) (a c : ℚ),
    (xs.map (fun x => x - c)).foldl min (a - c) = xs.foldl min a - c := by
  intro xs
  induction xs with
  | nil => intro a c; rfl
  | cons x rest ih =>
    intro a c
    have hmin : min (a - c) (x - c) = min a x - c := by
      rcases le_total a x with h | h
      · rw [min_eq_left h, min_eq_left (by linarith)]
      · rw [min_eq_right h, min_eq_right (by linarith)]
    calc ((x :: rest).map (fun y => y - c)).foldl min (a - c)
        = (rest.map (fun y => y - c)).foldl min (min (a - c) (x - c)) := rfl
    _ = (rest.map (fun y => y - c)).foldl min (min a x - c) := by rw [hmin]
    _ = rest.foldl min (min a x) - c := ih (min a x) c
    _ = (x :: rest).foldl min a - c := rfl

lemma listMin_map_sub (l : List ℚ) (c : ℚ) (h : l ≠ []) :
    listMin (l.map (fun x => x - c)) = listMin l - c := by
  cases l with
  | nil => exact absurd rfl h
  | cons y ys => exact foldl_min_sub ys y c

lemma calculate_sync_offsets_eq (atc : List (String × Option Str)) (h : atc ≠ []) :
    calculate_sync_offsets atc =
      atc.map (fun p => (p.1,
        truthySeconds p.2 - listMin (atc.map (fun q => truthySeconds q.2)))) := by
  rw [calculate_sync_offsets, if_neg (by simpa [List.isEmpty_iff] using h)]
  simp only [List.map_map]
  rfl

lemma getD_map {α β : Type} (l : List α) (f : α → β) (i : ℕ) (d : β) (d' : α)
    (h : i < l.length) : (l.map f).getD i d = f (l.getD i d') := by
  rw [List.getD_eq_getElem?_getD, List.getD_eq_getElem?_getD, List.getElem?_map]
  cases hg : l[i]? with
  | none =>
    rw [List.getElem?_eq_none_iff] at hg
    omega
  | some a => simp

/-- Claim C3 (corrected): on a non-empty angle-to-timecode map,
`calculate_sync_offsets` keeps the keys, anchors the minimum offset at 0,
makes every offset non-negative, gives angles with equal timecodes equal
offsets, and gives offset 0 exactly to the angles whose timecode converts to
the earliest seconds value (not to every tied pair, as the claim stated). -/
theorem claim_C3_amended (atc : List (String × Option Str)) (hne : atc ≠ []) :
    ((calculate_sync_offsets atc).map Prod.fst = atc.map Prod.fst) ∧
    listMin ((calculate_sync_offsets atc).map Prod.snd) = 0 ∧
    (∀ p ∈ calculate_sync_offsets atc, 0 ≤ p.2) ∧
    (∀ i j, i < atc.length → j < atc.length →
      (atc.getD i ("", none)).2 = (atc.getD j ("", none)).2 →
      ((calculate_sync_offsets atc).getD i ("", 0)).2 =
        ((calculate_sync_offsets atc).getD j ("", 0)).2) ∧
    (∀ i, i < atc.length →
      (((calculate_sync_offsets atc).getD i ("", 0)).2 = 0 ↔
        truthySeconds (atc.getD i ("", none)).2 =
          listMin (atc.map (fun q => truthySeconds q.2)))) := by
  have hvs : atc.map (fun q => truthySeconds q.2) ≠ [] := by
    intro hmap
    exact hne (List.map_eq_nil_iff.mp hmap)
  refine ⟨?_, ?_, ?_, ?_, ?_⟩
  · rw [calculate_sync_offsets_eq atc hne, List.map_map]
    rfl
  · have key : (calculate_sync_offsets atc).map Prod.snd =
        (atc.map (fun q => truthySeconds q.2)).map
          (fun x => x - listMin (atc.map (fun q => truthySeconds q.2))) := by
      rw [calculate_sync_offsets_eq atc hne, List.map_map, List.map_map]
      rfl
    rw [key, listMin_map_sub _ _ hvs, sub_self]
  · intro p hp
    rw [calculate_sync_offsets_eq atc hne] at hp
    rcases List.mem_map.mp hp with ⟨q, hq, hfq⟩
    rw [← hfq]
    have : truthySeconds q.2 ∈ atc.map (fun r => truthySeconds r.2) :=
      List.mem_map.mpr ⟨q, hq, rfl⟩
    have hle := listMin_le _ _ this
    simp only
    linarith
  · intro i j hi hj heq
    rw [calculate_sync_offsets_eq atc hne,
      getD_map atc _ i ("", 0) ("", none) hi, getD_map atc _ j ("", 0) ("", none) hj]
    simp only
    rw [heq]
  · intro i hi
    rw [calculate_sync_offsets_eq atc hne, getD_map atc _ i ("", 0) ("", none) hi]
    simp only
    exact sub_eq_zero

/-- Witness for claim C3's amended theorem on a concrete three-angle map. -/
theorem claim_C3_witness :
    ((calculate_sync_offsets [("A", some "00:00:10:00".toList),
        ("C", some "00:00:00:00".toList)]).map Prod.fst =
      ([("A", some "00:00:10:00".toList), ("C", some "00:00:00:00".toList)]).map Prod.fst) ∧
    listMin ((calculate_sync_offsets [("A", some "00:00:10:00".toList),
        ("C", some "00:00:00:00".toList)]).map Prod.snd) = 0 ∧
    (∀ p ∈ calculate_sync_offsets [("A", some "00:00:10:00".toList),
        ("C", some "00:00:00:00".toList)], 0 ≤ p.2) ∧
    (∀ i j, i < ([("A", some "00:00:10:00".toList),
        ("C", some "00:00:00:00".toList)] : List (String × Option Str)).length →
      j < ([("A", some "00:00:10:00".toList),
        ("C", some "00:00:00:00".toList)] : List (String × Option Str)).length →
      (([("A", some "00:00:10:00".toList),
        ("C", some "00:00:00:00".toList)]).getD i ("", none)).2 =
        (([("A", some "00:00:10:00".toList),
          ("C", some "00:00:00:00".toList)]).getD j ("", none)).2 →
      ((calculate_sync_offsets [("A", some "00:00:10:00".toList),
          ("C", some "00:00:00:00".toList)]).getD i ("", 0)).2 =
        ((calculate_sync_offsets [("A", some "00:00:10:00".toList),
          ("C", some "00:00:00:00".toList)]).getD j ("", 0)).2) ∧
    (∀ i, i < ([("A", some "00:00:10:00".toList),
        ("C", some "00:00:00:00".toList)] : List (String × Option Str)).length →
      (((calculate_sync_offsets [("A", some "00:00:10:00".toList),
          ("C", some "00:00:00:00".toList)]).getD i ("", 0)).2 = 0 ↔
        truthySeconds (([("A", some "00:00:10:00".toList),
            ("C", some "00:00:00:00".toList)]).getD i ("", none)).2 =
          listMin (([("A", some "00:00:10:00".toList),
            ("C", some "00:00:00:00".toList)]).map (fun q => truthySeconds q.2)))) :=
  claim_C3_amended [("A", some "00:00:10:00".toList), ("C", some "00:00:00:00".toList)]
    (by decide)

/-- Counterexample for claim C3 as stated: with a third, earlier angle, two
angles that share the same timecode both get offset 10, not 0. -/
theorem claim_C3_counterexample :
    (([("A", some "00:00:10:00".toList), ("B", some "00:00:10:00".toList),
        ("C", some "00:00:00:00".toList)] :
      List (String × Option Str)).getD 0 ("", none)).2 =
      (([("A", some "00:00:10:00".toList), ("B", some "00:00:10:00".toList),
          ("C", some "00:00:00:00".toList)] :
        List (String × Option Str)).getD 1 ("", none)).2 ∧
    ((calculate_sync_offsets [("A", some "00:00:10:00".toList),
        ("B", some "00:00:10:00".toList), ("C", some "00:00:00:00".toList)]).getD 0
      ("", 0)).2 = 10 ∧
    ¬ ((calculate_sync_offsets [("A", some "00:00:10:00".toList),
        ("B", some "00:00:10:00".toList), ("C", some "00:00:00:00".toList)]).getD 0
      ("", 0)).2 = 0 := by
  refine ⟨by decide, by decide, by decide⟩

lemma lookup_map_nodup {β γ : Type} (g : String × β → γ) :
    ∀ (l : List (String × β)) (a : String) (b : β),
      (l.map Prod.fst).Nodup → (a, b) ∈ l →
      (l.map (fun p => (p.1, g p))).lookup a = some (g (a, b)) := by
  intro l
  induction l with
  | nil => intro a b _ hmem; cases hmem
  | cons cd t ih =>
    intro a b hnd hmem
    obtain ⟨c, d⟩ := cd
    have hnd' : c ∉ t.map Prod.fst ∧ (t.map Prod.fst).Nodup := List.nodup_cons.mp hnd
    by_cases hca : c = a
    · subst hca
      have hbd : b = d := by
        rcases List.mem_cons.mp hmem with h | h
        · cases h; rfl
        · exact absurd (List.mem_map.mpr ⟨(c, b), h, rfl⟩) hnd'.1
      subst hbd
      simp [List.lookup]
    · have hb : (a == c) = false := beq_eq_false_iff_ne.mpr (Ne.symm hca)
      have hmem' : (a, b) ∈ t := by
        rcases List.mem_cons.mp hmem with h | h
        · cases h; exact absurd rfl hca
        · exact h
      simp only [List.map_cons, List.lookup, hb]
      exact ih a b hnd'.2 hmem'

lemma map_keyed_fst {β γ : Type} (g : String × β → γ) (w : List (String × β)) :
    (w.map (fun p => (p.1, g p))).map Prod.fst = w.map Prod.fst := by
  rw [List.map_map]
  exact List.map_eq_map_iff.mpr (fun p _ => rfl)

lemma mkSyncEntry_fst (probe : String → Option Str) (p : String × List String) :
    (mkSyncEntry probe p).1 = p.1 := by
  rw [mkSyncEntry]
  cases minString? (p.2.filter isSyncVideoFile) <;> rfl

lemma mkSyncEntry_timecode_nonneg (probe : String → Option Str)
    (hprobe : ∀ f tc, probe f = some tc → 0 ≤ timecode_to_seconds tc)
    (p : String × List String) :
    0 ≤ truthySeconds (mkSyncEntry probe p).2.timecode := by
  rw [mkSyncEntry]
  cases hmin : minString? (p.2.filter isSyncVideoFile) with
  | none => simp [truthySeconds]
  | some first =>
    simp only
    cases hp : probe first with
    | none => simp [truthySeconds]
    | some tc =>
      simp only [truthySeconds]
      split_ifs
      · exact le_refl 0
      · exact hprobe first tc hp

/-- Claim C7 (confirmed): when some angle's folder holds no video files,
`get_multicam_sync_data` still returns an entry for every angle of the input
(keys preserved, no abort), and the empty angle gets the degraded record
`{timecode: None, first_file: None, offset: 0.0}` — under the format
assumption that every probed timecode converts to non-negative seconds. -/
theorem claim_C7_degraded_angle (probe : String → Option Str)
    (camera_folders : List (String × List String))
    (hnd : (camera_folders.map Prod.fst).Nodup)
    (hprobe : ∀ f tc, probe f = some tc → 0 ≤ timecode_to_seconds tc)
    (angle : String) (folder : List String)
    (hmem : (angle, folder) ∈ camera_folders)
    (hempty : folder.filter isSyncVideoFile = []) :
    (get_multicam_sync_data probe camera_folders).map Prod.fst =
      camera_folders.map Prod.fst ∧
    (get_multicam_sync_data probe camera_folders).lookup angle =
      some ⟨none, none, 0⟩ := by
  have hentry : mkSyncEntry probe (angle, folder) = (angle, ⟨none, none, 0⟩) := by
    rw [mkSyncEntry]
    simp only [hempty]
    rfl
  have hsync_keys : (camera_folders.map (mkSyncEntry probe)).map Prod.fst =
      camera_folders.map Prod.fst := by
    rw [List.map_map]
    exact List.map_eq_map_iff.mpr (fun p _ => mkSyncEntry_fst probe p)
  have hsync_mem : (angle, (⟨none, none, 0⟩ : AngleSyncInfo)) ∈
      camera_folders.map (mkSyncEntry probe) :=
    List.mem_map.mpr ⟨(angle, folder), hmem, hentry⟩
  have htl_keys : ((camera_folders.map (mkSyncEntry probe)).map
      (fun p => (p.1, p.2.timecode))).map Prod.fst = camera_folders.map Prod.fst := by
    rw [List.map_map]
    rw [show (Prod.fst ∘ fun p : String × AngleSyncInfo => (p.1, p.2.timecode)) =
      Prod.fst from rfl]
    exact hsync_keys
  have htl_mem : (angle, (none : Option Str)) ∈
      (camera_folders.map (mkSyncEntry probe)).map (fun p => (p.1, p.2.timecode)) :=
    List.mem_map.mpr ⟨(angle, ⟨none, none, 0⟩), hsync_mem, rfl⟩
  have htl_ne : (camera_folders.map (mkSyncEntry probe)).map
      (fun p => (p.1, p.2.timecode)) ≠ [] := by
    intro hnil
    rw [hnil] at htl_mem
    cases htl_mem
  have hvs_nonneg : ∀ v ∈ ((camera_folders.map (mkSyncEntry probe)).map
      (fun p => (p.1, p.2.timecode))).map (fun q => truthySeconds q.2), 0 ≤ v := by
    intro v hv
    rcases List.mem_map.mp hv with ⟨q, hq, hfq⟩
    rcases List.mem_map.mp hq with ⟨r, hr, hfr⟩
    rcases List.mem_map.mp hr with ⟨p, _, hfp⟩
    rw [← hfq, ← hfr, ← hfp]
    exact mkSyncEntry_timecode_nonneg probe hprobe p
  have hvs_mem : (0 : ℚ) ∈ ((camera_folders.map (mkSyncEntry probe)).map
      (fun p => (p.1, p.2.timecode))).map (fun q => truthySeconds q.2) := by
    refine List.mem_map.mpr ⟨(angle, none), htl_mem, rfl⟩
  have hmin0 : listMin (((camera_folders.map (mkSyncEntry probe)).map
      (fun p => (p.1, p.2.timecode))).map (fun q => truthySeconds q.2)) = 0 := by
    apply le_antisymm (listMin_le _ 0 hvs_mem)
    apply hvs_nonneg
    apply listMin_mem
    intro hnil
    rw [List.map_eq_nil_iff] at hnil
    exact htl_ne hnil
  have hoff : (calculate_sync_offsets ((camera_folders.map (mkSyncEntry probe)).map
      (fun p => (p.1, p.2.timecode)))).lookup angle = some 0 := by
    rw [calculate_sync_offsets_eq _ htl_ne]
    rw [lookup_map_nodup _ _ angle none (by rw [htl_keys]; exact hnd) htl_mem]
    rw [hmin0]
    simp [truthySeconds]
  constructor
  · rw [get_multicam_sync_data]
    exact (map_keyed_fst _ _).trans hsync_keys
  · rw [get_multicam_sync_data]
    rw [lookup_map_nodup _ _ angle ⟨none, none, 0⟩ (by rw [hsync_keys]; exact hnd) hsync_mem]
    rw [hoff]
    rfl

/-- Witness for claim C7: angle B's folder has no video files, angle A's
does; the probe always reports 10:00:00:00. -/
theorem claim_C7_witness :
    (get_multicam_sync_data (fun _ => some "10:00:00:00".toList)
        [("A", ["a.mp4"]), ("B", ["notes.txt"])]).map Prod.fst =
      ([("A", ["a.mp4"]), ("B", ["notes.txt"])] :
        List (String × List String)).map Prod.fst ∧
    (get_multicam_sync_data (fun _ => some "10:00:00:00".toList)
        [("A", ["a.mp4"]), ("B", ["notes.txt"])]).lookup "B" =
      some ⟨none, none, 0⟩ :=
  claim_C7_degraded_angle (fun _ => some "10:00:00:00".toList)
    [("A", ["a.mp4"]), ("B", ["notes.txt"])] (by decide)
    (fun f tc htc => by
      cases htc
      decide)
    "B" ["notes.txt"] (by decide) (by decide)

/-- The ten decimal digit characters. -/
def digitChars : Str := ['0', '1', '2', '3', '4', '5', '6', '7', '8', '9']

lemma digitChar_mem (d : ℕ) (h : d < 10) : digitChar d ∈ digitChars := by
  interval_cases d <;> decide

lemma digitVal_digitChar (d : ℕ) (h : d < 10) : digitVal (digitChar d) = d := by
  interval_cases d <;> decide

lemma digitsVal_append_digit (l : Str) (c : Char) :
    digitsVal (l ++ [c]) = 10 * digitsVal l + digitVal c := by
  rw [digitsVal, digitsVal, List.foldl_append]
  rfl

lemma natToCharsAux_spec : ∀ (fuel n : ℕ), n < fuel →
    (∀ c ∈ natToCharsAux fuel n, c ∈ digitChars) ∧
    natToCharsAux fuel n ≠ [] ∧
    digitsVal (natToCharsAux fuel n) = n := by
  intro fuel
  induction fuel with
  | zero => intro n hn; omega
  | succ fuel ih =>
    intro n hn
    by_cases h10 : n < 10
    · rw [natToCharsAux, if_pos h10]
      refine ⟨?_, by simp, ?_⟩
      · intro c hc
        rw [List.mem_singleton] at hc
        rw [hc]
        exact digitChar_mem n h10
      · show digitsVal ([] ++ [digitChar n]) = n
        rw [digitsVal_append_digit]
        have := digitVal_digitChar n h10
        simp [digitsVal]
        omega
    · have hdiv : n / 10 < fuel := by omega
      have hmod : n % 10 < 10 := Nat.mod_lt n (by omega)
      obtain ⟨ihm, ihne, ihv⟩ := ih (n / 10) hdiv
      rw [natToCharsAux, if_neg h10]
      refine ⟨?_, by simp, ?_⟩
      · intro c hc
        rcases List.mem_append.mp hc with h | h
        · exact ihm c h
        · rw [List.mem_singleton] at h
          rw [h]
          exact digitChar_mem _ hmod
      · rw [digitsVal_append_digit, ihv, digitVal_digitChar _ hmod]
        omega

lemma natToChars_spec (n : ℕ) :
    (∀ c ∈ natToChars n, c ∈ digitChars) ∧
    natToChars n ≠ [] ∧
    digitsVal (natToChars n) = n :=
  natToCharsAux_spec (n + 1) n (by omega)

lemma pad2_natCast_eq (n : ℕ) :
    pad2 (n : ℤ) =
      if (natToChars n).length < 2 then '0' :: natToChars n else natToChars n := by
  simp only [pad2, intToChars]
  rw [if_neg (show ¬ ((n : ℤ) < 0) by omega), Int.toNat_natCast]

lemma pad2_natCast_chars (n : ℕ) : ∀ c ∈ pad2 (n : ℤ), c ∈ digitChars := by
  intro c hc
  rw [pad2_natCast_eq] at hc
  split_ifs at hc
  · rcases List.mem_cons.mp hc with h | h
    · rw [h]; decide
    · exact (natToChars_spec n).1 c h
  · exact (natToChars_spec n).1 c hc

lemma digit_chars_facts : ∀ c ∈ digitChars,
    isPySpace c = false ∧ c ≠ '+' ∧ c ≠ '-' ∧ Char.isDigit c = true ∧ c ≠ ':' := by
  decide

lemma dropWhile_eq_self_of_not (p : Char → Bool) (l : Str)
    (h : ∀ c ∈ l, p c = false) : l.dropWhile p = l := by
  cases l with
  | nil => rfl
  | cons c cs =>
    rw [List.dropWhile_cons, h c (List.mem_cons_self c cs)]
    simp

lemma pyStrip_of_digits (l : Str) (h : ∀ c ∈ l, c ∈ digitChars) : pyStrip l = l := by
  rw [pyStrip]
  rw [dropWhile_eq_self_of_not _ l (fun c hc => (digit_chars_facts c (h c hc)).1)]
  rw [dropWhile_eq_self_of_not _ l.reverse
    (fun c hc => (digit_chars_facts c (h c (List.mem_reverse.mp hc))).1)]
  exact List.reverse_reverse l

lemma digitsVal_cons_zero (l : Str) : digitsVal ('0' :: l) = digitsVal l := by
  rw [digitsVal, digitsVal, List.foldl_cons]
  norm_num [digitVal]

lemma pyParseInt_digits (l : Str) (hne : l ≠ []) (h : ∀ c ∈ l, c ∈ digitChars) :
    pyParseInt l = some ((digitsVal l : ℕ) : ℤ) := by
  rw [pyParseInt, pyStrip_of_digits l h]
  have hdigits : pyDigits l = true := by
    rw [pyDigits]
    simp only [Bool.and_eq_true, Bool.not_eq_true']
    constructor
    · simpa [List.isEmpty_iff] using hne
    · rw [List.all_eq_true]
      intro c hc
      exact (digit_chars_facts c (h c hc)).2.2.2.1
  cases l with
  | nil => exact absurd rfl hne
  | cons c cs =>
    have hcd := digit_chars_facts c (h c (List.mem_cons_self c cs))
    have hcp : c ≠ '+' := hcd.2.1
    have hcm : c ≠ '-' := hcd.2.2.1
    split
    · rename_i ds heq
      exfalso
      simp only [List.cons.injEq] at heq
      exact hcp heq.1
    · rename_i ds heq
      exfalso
      simp only [List.cons.injEq] at heq
      exact hcm heq.1
    · rw [if_pos hdigits]

lemma pad2_ne_nil (n : ℕ) : pad2 (n : ℤ) ≠ [] := by
  rw [pad2_natCast_eq]
  split_ifs
  · simp
  · exact (natToChars_spec n).2.1

lemma digitsVal_pad2 (n : ℕ) : digitsVal (pad2 (n : ℤ)) = n := by
  rw [pad2_natCast_eq]
  split_ifs
  · rw [digitsVal_cons_zero, (natToChars_spec n).2.2]
  · exact (natToChars_spec n).2.2

lemma pyParseInt_pad2 (n : ℕ) : pyParseInt (pad2 (n : ℤ)) = some ((n : ℕ) : ℤ) := by
  rw [pyParseInt_digits _ (pad2_ne_nil n) (pad2_natCast_chars n), digitsVal_pad2]

lemma pad2_no_colon (n : ℕ) : ∀ ch ∈ pad2 (n : ℤ), ch ≠ ':' :=
  fun ch hch => (digit_chars_facts ch (pad2_natCast_chars n ch hch)).2.2.2.2

lemma splitColon_no_colon : ∀ (a : Str), (∀ c ∈ a, c ≠ ':') → splitColon a = [a] := by
  intro a
  induction a with
  | nil => intro _; rfl
  | cons c cs ih =>
    intro h
    rw [splitColon, if_neg (h c (List.mem_cons_self c cs)),
      ih (fun x hx => h x (List.mem_cons_of_mem _ hx))]

lemma splitColon_append : ∀ (a r : Str), (∀ c ∈ a, c ≠ ':') →
    splitColon (a ++ ':' :: r) = a :: splitColon r := by
  intro a
  induction a with
  | nil =>
    intro r _
    show splitColon (':' :: r) = [] :: splitColon r
    rw [splitColon, if_pos rfl]
  | cons c cs ih =>
    intro r h
    show splitColon (c :: (cs ++ ':' :: r)) = (c :: cs) :: splitColon r
    rw [splitColon, if_neg (h c (List.mem_cons_self c cs)),
      ih r (fun x hx => h x (List.mem_cons_of_mem _ hx))]

lemma floor_natCast_div (k d : ℕ) : ⌊(k : ℚ) / (d : ℚ)⌋ = ((k / d : ℕ) : ℤ) :=
  Rat.floor_natCast_div_natCast k d

lemma pyFloorMod_k24 (k B : ℕ) :
    pyFloorMod ((k : ℚ) / 24) (B : ℚ) = ((k % (24 * B) : ℕ) : ℚ) / 24 := by
  rw [pyFloorMod]
  have hq : (k : ℚ) / 24 / (B : ℚ) = (k : ℚ) / ((24 * B : ℕ) : ℚ) := by
    rw [div_div]
    push_cast
    ring_nf
  rw [hq, floor_natCast_div]
  have hnat : 24 * B * (k / (24 * B)) + k % (24 * B) = k := Nat.div_add_mod k (24 * B)
  have hq2 := congrArg (Nat.cast : ℕ → ℚ) hnat
  push_cast at hq2
  rw [Int.cast_natCast]
  linear_combination (-1 / 24 : ℚ) * hq2

lemma pyInt_natCast (m : ℕ) : pyInt ((m : ℕ) : ℚ) = (m : ℤ) := by
  rw [pyInt, if_pos (by positivity)]
  exact_mod_cast Int.floor_natCast m

lemma pyInt_natCast_div24 (m : ℕ) : pyInt ((m : ℚ) / 24) = ((m / 24 : ℕ) : ℤ) := by
  rw [pyInt, if_pos (by positivity)]
  have h24 : ((24 : ℚ)) = ((24 : ℕ) : ℚ) := by norm_num
  rw [h24, floor_natCast_div]

lemma seconds_to_timecode_frameAligned (k : ℕ) :
    seconds_to_timecode ((k : ℚ) / 24) 24 =
      pad2 ((k / 86400 : ℕ) : ℤ) ++ ':' :: pad2 ((k % 86400 / 1440 : ℕ) : ℤ) ++
      ':' :: pad2 ((k % 1440 / 24 : ℕ) : ℤ) ++ ':' :: pad2 ((k % 24 : ℕ) : ℤ) := by
  have h3600 : (3600 : ℚ) = ((3600 : ℕ) : ℚ) := by norm_num
  have h60 : (60 : ℚ) = ((60 : ℕ) : ℚ) := by norm_num
  have h1 : (1 : ℚ) = ((1 : ℕ) : ℚ) := by norm_num
  have hh : ⌊(k : ℚ) / 24 / 3600⌋ = ((k / 86400 : ℕ) : ℤ) := by
    rw [div_div, show ((24 : ℚ) * 3600) = ((86400 : ℕ) : ℚ) by norm_num, floor_natCast_div]
  have hmod3600 : pyFloorMod ((k : ℚ) / 24) 3600 = ((k % 86400 : ℕ) : ℚ) / 24 := by
    rw [h3600, pyFloorMod_k24 k 3600]
  have hmin : ⌊((k % 86400 : ℕ) : ℚ) / 24 / 60⌋ = ((k % 86400 / 1440 : ℕ) : ℤ) := by
    rw [div_div, show ((24 : ℚ) * 60) = ((1440 : ℕ) : ℚ) by norm_num, floor_natCast_div]
  have hmod60 : pyFloorMod ((k : ℚ) / 24) 60 = ((k % 1440 : ℕ) : ℚ) / 24 := by
    rw [h60, pyFloorMod_k24 k 60]
  have hmod1 : pyFloorMod ((k : ℚ) / 24) 1 = ((k % 24 : ℕ) : ℚ) / 24 := by
    rw [h1, pyFloorMod_k24 k 1]
  have hsecs : pyInt (((k % 1440 : ℕ) : ℚ) / 24) = ((k % 1440 / 24 : ℕ) : ℤ) :=
    pyInt_natCast_div24 (k % 1440)
  have hframes : pyInt (((k % 24 : ℕ) : ℚ) / 24 * 24) = ((k % 24 : ℕ) : ℤ) := by
    rw [div_mul_cancel₀ _ (by norm_num : (24 : ℚ) ≠ 0)]
    exact pyInt_natCast (k % 24)
  simp only [seconds_to_timecode]
  rw [hh, hmod3600, hmin, hmod60, hsecs, hmod1, hframes]

lemma timecode_to_seconds_pads (a b c d : ℕ) :
    timecode_to_seconds (pad2 (a : ℤ) ++ ':' :: pad2 (b : ℤ) ++
        ':' :: pad2 (c : ℤ) ++ ':' :: pad2 (d : ℤ)) =
      (a : ℚ) * 3600 + (b : ℚ) * 60 + (c : ℚ) + (d : ℚ) / 24 := by
  have hshape : pad2 (a : ℤ) ++ ':' :: pad2 (b : ℤ) ++
      ':' :: pad2 (c : ℤ) ++ ':' :: pad2 (d : ℤ) =
      pad2 (a : ℤ) ++ ':' :: (pad2 (b : ℤ) ++
        ':' :: (pad2 (c : ℤ) ++ ':' :: pad2 (d : ℤ))) := by
    simp [List.cons_append, List.append_assoc]
  have hsplit : splitColon (pad2 (a : ℤ) ++ ':' :: pad2 (b : ℤ) ++
      ':' :: pad2 (c : ℤ) ++ ':' :: pad2 (d : ℤ)) =
      [pad2 (a : ℤ), pad2 (b : ℤ), pad2 (c : ℤ), pad2 (d : ℤ)] := by
    rw [hshape, splitColon_append _ _ (pad2_no_colon a),
      splitColon_append _ _ (pad2_no_colon b),
      splitColon_append _ _ (pad2_no_colon c), splitColon_no_colon _ (pad2_no_colon d)]
  have hparse : parseIntList [pad2 (a : ℤ), pad2 (b : ℤ), pad2 (c : ℤ), pad2 (d : ℤ)] =
      some [(a : ℤ), (b : ℤ), (c : ℤ), (d : ℤ)] := by
    simp [parseIntList, pyParseInt_pad2]
  rw [timecode_to_seconds]
  simp only [timecode_to_seconds_core, hsplit, hparse]
  norm_num

/-- Claim C2 (corrected): at the hard-coded 24 fps of `timecode_to_seconds`,
the round trip is exact on every non-negative frame-aligned seconds value
`k/24`; for other frame rates the round trip fails (the parser always divides
the frame field by 24). -/
theorem claim_C2_roundtrip_24 (k : ℕ) :
    timecode_to_seconds (seconds_to_timecode ((k : ℚ) / 24) 24) = (k : ℚ) / 24 := by
  rw [seconds_to_timecode_frameAligned, timecode_to_seconds_pads]
  have hnat : 86400 * (k / 86400) + 1440 * (k % 86400 / 1440) +
      24 * (k % 1440 / 24) + k % 24 = k := by omega
  have hq := congrArg (Nat.cast : ℕ → ℚ) hnat
  push_cast at hq
  field_simp
  linarith

/-- Counterexample for claim C2 as stated: at 48 fps, the frame-aligned value
0.5 s (24 frames of 1/48 s) renders as `00:00:00:24`, which parses back as a
full second — an error of 0.5 s, far beyond 1/48 s. -/
theorem claim_C2_counterexample :
    (1 : ℚ) / 2 = ((24 : ℕ) : ℚ) / 48 ∧
    seconds_to_timecode ((1 : ℚ) / 2) 48 = "00:00:00:24".toList ∧
    timecode_to_seconds (seconds_to_timecode ((1 : ℚ) / 2) 48) = 1 ∧
    ¬ |timecode_to_seconds (seconds_to_timecode ((1 : ℚ) / 2) 48) - (1 : ℚ) / 2| ≤ 1 / 48 := by
  refine ⟨by norm_num, by decide, by decide, by decide⟩

/-- Claim C9 (corrected): the single-camera XML builder is a pure function of
the segment list, the video directory, and the enumeration order of the
deduplicated source set: two runs that enumerate the set in the same order
produce byte-identical documents.  Across runs Python's hash-salted set
iteration can change that order, which changes the bytes. -/
theorem claim_C9_deterministic (segments : List Segment) (videoDir : String)
    (o1 o2 : List String)
    (_h1 : IsSetOrder (segments.map Segment.source_video) o1)
    (_h2 : IsSetOrder (segments.map Segment.source_video) o2)
    (heq : o1 = o2) :
    generatePremiereXml segments videoDir o1 = generatePremiereXml segments videoDir o2 := by
  rw [heq]

/-- Witness for claim C9's amended theorem at a one-segment script. -/
theorem claim_C9_witness :
    generatePremiereXml [⟨"a", 0, 1, 1, "v.mp4", "A"⟩] "/videos" ["v.mp4"] =
      generatePremiereXml [⟨"a", 0, 1, 1, "v.mp4", "A"⟩] "/videos" ["v.mp4"] :=
  claim_C9_deterministic [⟨"a", 0, 1, 1, "v.mp4", "A"⟩] "/videos" ["v.mp4"] ["v.mp4"]
    (by decide) (by decide) rfl

/-- Counterexample for claim C9 as stated: both orders are legitimate
enumerations of the same source-video set, yet the two runs emit different
bytes (the media bin order and the file ids swap). -/
theorem claim_C9_counterexample :
    IsSetOrder ([⟨"a", 0, 1, 1, "a.mp4", "A"⟩,
        (⟨"b", 1, 2, 1, "b.mp4", "A"⟩ : Segment)].map Segment.source_video)
      ["a.mp4", "b.mp4"] ∧
    IsSetOrder ([⟨"a", 0, 1, 1, "a.mp4", "A"⟩,
        (⟨"b", 1, 2, 1, "b.mp4", "A"⟩ : Segment)].map Segment.source_video)
      ["b.mp4", "a.mp4"] ∧
    generatePremiereXml [⟨"a", 0, 1, 1, "a.mp4", "A"⟩, ⟨"b", 1, 2, 1, "b.mp4", "A"⟩]
        "/videos" ["a.mp4", "b.mp4"] ≠
      generatePremiereXml [⟨"a", 0, 1, 1, "a.mp4", "A"⟩, ⟨"b", 1, 2, 1, "b.mp4", "A"⟩]
        "/videos" ["b.mp4", "a.mp4"] := by
  refine ⟨by decide, by decide, by decide⟩
